import Mathlib

/-!
Shallow embedding of the guidebook-todo task engine
(src/core/todo.rs, src/core/storage.rs, src/core/filters.rs,
src/tui/search.rs) and proofs about its specification claims.

Rust strings are modelled as lists of characters; Rust byte length
(str::len) is modelled by summing UTF-8 sizes; timestamps
(chrono DateTime) are modelled as integer seconds, with the current
time passed explicitly where the code calls Local::now().
Fallible operations return Option; the in-place mutating
TodoList::update_todo (&mut self, Result<()>) is modelled as a function
returning the new state together with an error flag, so that mutations
performed before an error are visible, exactly as in the Rust code.
-/

namespace GuidebookTodo

/-- Rust str / String, modelled as a list of characters. -/
abbrev Str := List Char

/-- Conversion from a Lean string literal to the model type. -/
def str (s : String) : Str := s.data

/-- Rust str::to_lowercase (ASCII-adequate model). -/
def toLowerStr (s : Str) : Str := s.map Char.toLower

/-- Rust str::trim: remove leading and trailing whitespace. -/
def trimStr (s : Str) : Str :=
  ((s.dropWhile Char.isWhitespace).reverse.dropWhile Char.isWhitespace).reverse

/-- Rust str::len: the UTF-8 byte length of the string. -/
def utf8Len (s : Str) : Nat := (s.map Char.utf8Size).sum

/-- Rust str::split(c): split on a separator character, keeping empty pieces. -/
def splitStr (c : Char) : Str → List Str
  | [] => [[]]
  | x :: xs =>
    if x = c then [] :: splitStr c xs
    else
      match splitStr c xs with
      | r :: rs => (x :: r) :: rs
      | [] => [[x]]

/-- Rust str::replace(' ', underscore): replace every space character. -/
def replaceSpaces (s : Str) : Str := s.map (fun ch => if ch = ' ' then '_' else ch)

/-- Rust str::starts_with(c) for a character pattern. -/
def startsWithChar (s : Str) (c : Char) : Bool :=
  match s with
  | [] => false
  | x :: _ => x = c

/-- Rust slicing s[1..]: drop the first character. -/
def drop1 (s : Str) : Str := s.drop 1

/-- Priority enum from src/core/todo.rs. -/
inductive Priority where
  | P0
  | P1
  | P2
  | P3
  | P4
  | P5
deriving DecidableEq

/-- Status enum from src/core/todo.rs. -/
inductive Status where
  | Todo
  | InProgress
  | Done
  | Archived
deriving DecidableEq

/-- Todo struct from src/core/todo.rs. -/
structure Todo where
  id : Nat
  title : Str
  priority : Priority
  status : Status
  tags : List Str
  category : Option Str
  project : Option Str
  created_date : Int
  finished_date : Option Int
  notes : Option Str
deriving DecidableEq

/-- TodoList struct from src/core/todo.rs. -/
structure TodoList where
  next_id : Nat
  todos : List Todo
deriving DecidableEq

/-- Todo::priority_value from src/core/todo.rs. -/
def Todo.priority_value (t : Todo) : Nat :=
  match t.priority with
  | .P0 => 0
  | .P1 => 1
  | .P2 => 2
  | .P3 => 3
  | .P4 => 4
  | .P5 => 5

/-- Todo::is_active from src/core/todo.rs. -/
def Todo.is_active (t : Todo) : Bool :=
  match t.status with
  | .Todo => true
  | .InProgress => true
  | _ => false

/-- Todo::validate_category from src/core/todo.rs: fails when the byte
length exceeds 50. -/
def validate_category (category : Str) : Option Unit :=
  if utf8Len category > 50 then none else some ()

/-- Todo::validate_project from src/core/todo.rs: fails when the byte
length exceeds 100. -/
def validate_project (project : Str) : Option Unit :=
  if utf8Len project > 100 then none else some ()

/-- Todo::validate_notes from src/core/todo.rs: fails when the byte
length exceeds 2000. -/
def validate_notes (notes : Str) : Option Unit :=
  if utf8Len notes > 2000 then none else some ()

/-- Todo::validate_and_normalize_tags from src/core/todo.rs: split on
comma, trim, lowercase, drop empties, replace spaces with underscores;
fail if any resulting tag exceeds 30 bytes or still contains a space. -/
def validate_and_normalize_tags (tags_input : Str) : Option (List Str) :=
  let tags : List Str :=
    (((splitStr ',' tags_input).map (fun s => toLowerStr (trimStr s))).filter
      (fun s => !s.isEmpty)).map replaceSpaces
  if tags.all (fun tag => decide (utf8Len tag ≤ 30) && !tag.contains ' ') then
    some tags
  else
    none

/-- parse_status from src/core/todo.rs: lowercase, then match the
recognized spellings; unrecognized input is an error (none). -/
def parse_status (status_str : Str) : Option Status :=
  let l := toLowerStr status_str
  if l = str "todo" then some .Todo
  else if l = str "inprogress" ∨ l = str "in-progress" ∨ l = str "in_progress" then
    some .InProgress
  else if l = str "done" then some .Done
  else if l = str "archived" then some .Archived
  else none

/-- parse_priority from src/core/todo.rs: lowercase, then match p0..p5;
unrecognized input is an error (none). -/
def parse_priority (priority_str : Str) : Option Priority :=
  let l := toLowerStr priority_str
  if l = str "p0" then some .P0
  else if l = str "p1" then some .P1
  else if l = str "p2" then some .P2
  else if l = str "p3" then some .P3
  else if l = str "p4" then some .P4
  else if l = str "p5" then some .P5
  else none

/-- One iteration of the loop body of update_tags from src/core/todo.rs:
trim the token; a leading plus adds the lowercased remainder when
non-empty and not already present; a leading minus removes it;
anything else is ignored. -/
def applyTagToken (tags : List Str) (tok : Str) : List Str :=
  let tok := trimStr tok
  if startsWithChar tok '+' then
    let tag := toLowerStr (drop1 tok)
    if !tag.isEmpty && !tags.contains tag then tags ++ [tag] else tags
  else if startsWithChar tok '-' then
    let tag := toLowerStr (drop1 tok)
    tags.filter (fun t => t ≠ tag)
  else
    tags

/-- update_tags from src/core/todo.rs: fold the token action over the
comma-separated pieces of the delta string. -/
def update_tags (tags : List Str) (tags_str : Str) : List Str :=
  (splitStr ',' tags_str).foldl applyTagToken tags

/-- Rust iter_mut().find: rewrite the first element with the given id,
leave everything else in place. -/
def modifyFirst (f : Todo → Todo) (id : Nat) : List Todo → List Todo
  | [] => []
  | t :: ts => if t.id = id then f t :: ts else t :: modifyFirst f id ts

/-- Status-clause body of TodoList::update_todo in src/core/todo.rs:
install the new status, then stamp finished_date when moving into Done
from Todo or InProgress, clear it when moving out of Done back into
Todo or InProgress, and leave it alone otherwise. -/
def applyStatusChange (now : Int) (new_status : Status) (t : Todo) : Todo :=
  let old_status := t.status
  let t := { t with status := new_status }
  if t.status = .Done ∧ (old_status = .Todo ∨ old_status = .InProgress) then
    { t with finished_date := some now }
  else if (t.status = .Todo ∨ t.status = .InProgress) ∧ old_status = .Done then
    { t with finished_date := none }
  else
    t

/-- TodoList::update_todo from src/core/todo.rs. The Rust method
mutates self and returns Result<()>; here the new TodoList is returned
together with an error flag (true = the Rust call returned Err), so
mutations performed before an error remain visible. Clauses run in
source order: lookup, status, priority, tags, category, project, notes,
and a failing parse aborts the remaining clauses. -/
def TodoList.update_todo (tl : TodoList) (now : Int) (id : Nat)
    (status priority tags category project notes : Option Str) :
    TodoList × Bool :=
  if (tl.todos.find? (fun t => t.id = id)).isNone then
    (tl, true)
  else
    let upd := fun (tl : TodoList) (f : Todo → Todo) =>
      { tl with todos := modifyFirst f id tl.todos }
    let afterStatus : TodoList × Bool :=
      match status with
      | none => (tl, false)
      | some status_str =>
        match parse_status status_str with
        | none => (tl, true)
        | some new_status => (upd tl (applyStatusChange now new_status), false)
    if afterStatus.2 then (afterStatus.1, true)
    else
      let tl1 := afterStatus.1
      let afterPriority : TodoList × Bool :=
        match priority with
        | none => (tl1, false)
        | some priority_str =>
          match parse_priority priority_str with
          | none => (tl1, true)
          | some p => (upd tl1 (fun t => { t with priority := p }), false)
      if afterPriority.2 then (afterPriority.1, true)
      else
        let tl2 := afterPriority.1
        let tl3 :=
          match tags with
          | none => tl2
          | some tags_str => upd tl2 (fun t => { t with tags := update_tags t.tags tags_str })
        let tl4 :=
          match category with
          | none => tl3
          | some cat =>
            upd tl3 (fun t => { t with category := if cat.isEmpty then none else some cat })
        let tl5 :=
          match project with
          | none => tl4
          | some proj =>
            upd tl4 (fun t => { t with project := if proj.isEmpty then none else some proj })
        let tl6 :=
          match notes with
          | none => tl5
          | some note =>
            upd tl5 (fun t => { t with notes := if note.isEmpty then none else some note })
        (tl6, false)

/-- TodoList::filter_todos from src/core/storage.rs: exclude Archived
unless all is set; then apply the status, category, priority and tags
clauses, where an unparsable status or priority filter value is
silently ignored. -/
def TodoList.filter_todos (tl : TodoList)
    (status category priority tags : Option Str) (all : Bool) : List Todo :=
  tl.todos.filter (fun todo =>
    (all || !(todo.status = .Archived : Bool)) &&
    (match status with
     | none => true
     | some status_str =>
       match parse_status status_str with
       | none => true
       | some target => todo.status = target) &&
    (match category with
     | none => true
     | some category_str =>
       match todo.category with
       | some cat => cat = category_str
       | none => false) &&
    (match priority with
     | none => true
     | some priority_str =>
       match parse_priority priority_str with
       | none => true
       | some target => todo.priority = target) &&
    (match tags with
     | none => true
     | some tags_str =>
       ((splitStr ',' tags_str).map trimStr).all (fun target =>
         todo.tags.any (fun tag => tag = target))))

/-- Rust str::contains(substring): some suffix of s has q as a prefix. -/
def containsSub (s q : Str) : Bool :=
  match s with
  | [] => q.isEmpty
  | _ :: rest => q.isPrefixOf s || containsSub rest q

/-- search_todos from src/core/filters.rs: case-insensitive substring
match over title, notes, tags, category and project, always excluding
Archived tasks. -/
def search_todos (todos : List Todo) (query : Str) : List Todo :=
  let query_lower := toLowerStr query
  todos.filter (fun todo =>
    !(todo.status = .Archived : Bool) &&
    (containsSub (toLowerStr todo.title) query_lower ||
     (match todo.notes with
      | some n => containsSub (toLowerStr n) query_lower
      | none => false) ||
     todo.tags.any (fun tag => containsSub (toLowerStr tag) query_lower) ||
     (match todo.category with
      | some c => containsSub (toLowerStr c) query_lower
      | none => false) ||
     (match todo.project with
      | some p => containsSub (toLowerStr p) query_lower
      | none => false)))

/-- parse_status_for_filter from src/core/filters.rs: already-lowercased
status names only, plain Err on anything else. -/
def parse_status_for_filter (status_str : Str) : Option Status :=
  if status_str = str "todo" then some .Todo
  else if status_str = str "inprogress" ∨ status_str = str "in-progress" ∨
      status_str = str "in_progress" then some .InProgress
  else if status_str = str "done" then some .Done
  else if status_str = str "archived" then some .Archived
  else none

/-- parse_priority_for_filter from src/core/filters.rs: exact p0..p5. -/
def parse_priority_for_filter (priority_str : Str) : Option Priority :=
  if priority_str = str "p0" then some .P0
  else if priority_str = str "p1" then some .P1
  else if priority_str = str "p2" then some .P2
  else if priority_str = str "p3" then some .P3
  else if priority_str = str "p4" then some .P4
  else if priority_str = str "p5" then some .P5
  else none

/-- filter_by_special_syntax from src/core/filters.rs: hash gives exact
tag equality, at-sign gives case-insensitive category equality, bang
gives status equality when the status parses (falling through
otherwise), a two-byte pN token gives priority equality when it parses,
and everything else falls back to search_todos. Only the fallback
excludes Archived tasks. -/
def filter_by_special_syntax (todos : List Todo) (query : Str) : List Todo :=
  if startsWithChar query '#' then
    let tag := toLowerStr (drop1 query)
    todos.filter (fun todo => todo.tags.any (fun t => t = tag))
  else if startsWithChar query '@' then
    let category := toLowerStr (drop1 query)
    todos.filter (fun todo =>
      match todo.category with
      | some cat => toLowerStr cat = category
      | none => false)
  else
    match
      (if startsWithChar query '!' then
        parse_status_for_filter (toLowerStr (drop1 query))
      else none) with
    | some status => todos.filter (fun todo => todo.status = status)
    | none =>
      match
        (if startsWithChar query 'p' ∧ utf8Len query = 2 then
          parse_priority_for_filter query
        else none) with
      | some priority => todos.filter (fun todo => todo.priority = priority)
      | none => search_todos todos query

/-- Comparator passed to sort_by in sort_todos_by_priority
(src/core/filters.rs): priority_value ascending, then created_date
descending. -/
def todoCmp (a b : Todo) : Ordering :=
  match compare a.priority_value b.priority_value with
  | .eq => compare b.created_date a.created_date
  | o => o

/-- sort_todos_by_priority from src/core/filters.rs: Rust slice::sort_by
is a stable merge sort driven by the comparator. -/
def sort_todos_by_priority (todos : List Todo) : List Todo :=
  todos.mergeSort (fun a b => todoCmp a b ≠ .gt)

/-- TodoSearcher::should_include_todo from src/tui/search.rs: drop
Archived tasks; drop Done tasks whose finished_date lies more than 3
seconds before now; keep everything else (including Done tasks without
a finished_date). -/
def should_include_todo (now : Int) (todo : Todo) : Bool :=
  if todo.status = .Archived then false
  else if todo.status = .Done then
    match todo.finished_date with
    | some finished_date => !(now - finished_date > 3 : Bool)
    | none => true
  else true

/-! Concrete fixtures used by witnesses and counterexamples. -/

/-- A plain unfinished task used as a concrete instance. -/
def sampleTodo : Todo :=
  { id := 1, title := str "A", priority := Priority.P2, status := Status.Todo,
    tags := [str "urgent"], category := none, project := none,
    created_date := 0, finished_date := none, notes := none }

/-- An archived task used as a concrete instance. -/
def archivedTodo : Todo :=
  { id := 2, title := str "B", priority := Priority.P2, status := Status.Archived,
    tags := [str "urgent"], category := none, project := none,
    created_date := 0, finished_date := none, notes := none }

/-- A one-element collection holding sampleTodo. -/
def sampleList : TodoList := { next_id := 2, todos := [sampleTodo] }

/-- A one-element collection holding archivedTodo. -/
def archivedList : TodoList := { next_id := 3, todos := [archivedTodo] }

/-! Helper lemmas about the embedding. -/

/-- Rewriting the first id-match though a function that preserves ids
rewrites exactly the task found by find?. -/
theorem find?_modifyFirst (f : Todo → Todo) (id : Nat) (l : List Todo) (t : Todo)
    (hf : ∀ x, (f x).id = x.id)
    (h : l.find? (fun x => x.id = id) = some t) :
    (modifyFirst f id l).find? (fun x => x.id = id) = some (f t) := by
  induction l with
  | nil => simp [List.find?] at h
  | cons x xs ih =>
    by_cases hx : x.id = id
    · rw [List.find?_cons_of_pos _ (by simpa using hx)] at h
      cases h
      simp only [modifyFirst, if_pos hx]
      rw [List.find?_cons_of_pos _ (by simpa using (hf t).trans hx)]
    · rw [List.find?_cons_of_neg _ (by simpa using hx)] at h
      simp only [modifyFirst, if_neg hx]
      rw [List.find?_cons_of_neg _ (by simpa using hx)]
      exact ih h

/-- applyStatusChange never changes the id. -/
theorem applyStatusChange_id (now : Int) (ns : Status) (t : Todo) :
    (applyStatusChange now ns t).id = t.id := by
  unfold applyStatusChange
  dsimp only
  split
  · rfl
  · split <;> rfl

/-- applyStatusChange installs the requested status. -/
theorem applyStatusChange_status (now : Int) (ns : Status) (t : Todo) :
    (applyStatusChange now ns t).status = ns := by
  unfold applyStatusChange
  dsimp only
  split
  · rfl
  · split <;> rfl

/-- Characterization of the finished_date field after a status change:
stamped on a Todo/InProgress to Done transition, cleared on a Done to
Todo/InProgress transition, untouched otherwise. -/
theorem applyStatusChange_finished_date (now : Int) (ns : Status) (t : Todo) :
    (applyStatusChange now ns t).finished_date =
      if ns = .Done ∧ (t.status = .Todo ∨ t.status = .InProgress) then some now
      else if (ns = .Todo ∨ ns = .InProgress) ∧ t.status = .Done then none
      else t.finished_date := by
  unfold applyStatusChange
  dsimp only
  split <;> first
  | rfl
  | (split <;> rfl)

/-! Claims. -/

/-- C2 counterexample: on the input "Bug Fix, urgent, urgent" the code
keeps the duplicate, returning three tags, not the claimed two-element
list: no deduplication step exists in validate_and_normalize_tags. -/
theorem validate_tags_no_dedup_counterexample :
    validate_and_normalize_tags (str "Bug Fix, urgent, urgent") =
      some [str "bug_fix", str "urgent", str "urgent"] ∧
    some [str "bug_fix", str "urgent", str "urgent"] ≠
      some [str "bug_fix", str "urgent"] := by
  constructor
  · decide
  · decide

/-- C2 (amended): validate_and_normalize_tags on "Bug Fix, urgent,
urgent" succeeds and returns exactly ["bug_fix", "urgent", "urgent"]:
entries are lowercased, internal spaces become underscores, empty
entries are dropped, and duplicates are kept. -/
theorem validate_tags_normalizes_keeping_duplicates :
    validate_and_normalize_tags (str "Bug Fix, urgent, urgent") =
      some [str "bug_fix", str "urgent", str "urgent"] ∧
    validate_and_normalize_tags (str "Bug Fix, , urgent") =
      some [str "bug_fix", str "urgent"] := by
  constructor
  · decide
  · decide

/-- C7: tag-delta application is idempotent at the token level: a plus
token whose lowercased tag is already present leaves the tag list
unchanged, a minus token whose tag is absent leaves it unchanged, and a
token starting with neither plus nor minus leaves it unchanged. -/
theorem tag_delta_idempotent (tags : List Str) (tok rest : Str) :
    (trimStr tok = '+' :: rest → toLowerStr rest ∈ tags →
      applyTagToken tags tok = tags) ∧
    (trimStr tok = '-' :: rest → toLowerStr rest ∉ tags →
      applyTagToken tags tok = tags) ∧
    (startsWithChar (trimStr tok) '+' = false →
      startsWithChar (trimStr tok) '-' = false →
      applyTagToken tags tok = tags) := by
  refine ⟨fun h hmem => ?_, fun h hmem => ?_, fun h1 h2 => ?_⟩
  · simp only [applyTagToken, h, startsWithChar, drop1]
    simp [hmem]
  · simp only [applyTagToken, h, startsWithChar, drop1]
    simp only [decide_eq_true_eq, reduceIte]
    split
    · rename_i hc
      simp at hc
    · exact List.filter_eq_self.mpr (fun a ha => by
        simp only [decide_eq_true_eq]
        exact fun hEq => hmem (hEq ▸ ha))
  · simp only [applyTagToken, h1, h2]
    simp

/-- C7 witness: concrete idempotent applications of each token kind. -/
theorem tag_delta_idempotent_witness :
    applyTagToken [str "foo"] (str "+foo") = [str "foo"] ∧
    applyTagToken [str "foo"] (str "-bar") = [str "foo"] ∧
    applyTagToken [str "foo"] (str "baz") = [str "foo"] :=
  ⟨(tag_delta_idempotent [str "foo"] (str "+foo") (str "foo")).1 (by decide) (by decide),
   (tag_delta_idempotent [str "foo"] (str "-bar") (str "bar")).2.1 (by decide) (by decide),
   (tag_delta_idempotent [str "foo"] (str "baz") (str "bar")).2.2 (by decide) (by decide)⟩

/-- C6: the interactive search visibility rule admits a task iff its
status is not Archived and it is not a Done task whose finished_date
lies more than 3 seconds before the current time; and filtering with it
only selects (never alters) elements of the underlying list. -/
theorem should_include_todo_spec (now : Int) (t : Todo) (l : List Todo) :
    (should_include_todo now t = true ↔
      (t.status ≠ .Archived ∧
        ¬(t.status = .Done ∧ ∃ d, t.finished_date = some d ∧ now - d > 3))) ∧
    (l.filter (should_include_todo now)).Sublist l := by
  refine ⟨?_, List.filter_sublist l⟩
  unfold should_include_todo
  rcases hst : t.status <;> rcases hfd : t.finished_date with _ | d <;>
    simp [hst, hfd] <;> omega

/-- The comparator-based order used by sort_todos_by_priority, as a
proposition: strictly smaller priority_value, or equal priority_value
and no older created_date. -/
def sortRel (a b : Todo) : Prop :=
  a.priority_value < b.priority_value ∨
    (a.priority_value = b.priority_value ∧ b.created_date ≤ a.created_date)

/-- The Bool comparator of sort_todos_by_priority agrees with sortRel. -/
theorem todoCmp_ne_gt (a b : Todo) : todoCmp a b ≠ .gt ↔ sortRel a b := by
  unfold todoCmp sortRel
  rcases h : compare a.priority_value b.priority_value with _ | _ | _
  · rw [Nat.compare_eq_lt] at h
    simp
    omega
  · rw [Nat.compare_eq_eq] at h
    have : compare b.created_date a.created_date = .gt ↔ a.created_date < b.created_date :=
      compare_gt_iff_gt
    constructor
    · intro hne
      exact Or.inr ⟨h, by by_contra hc; exact hne (this.mpr (by omega))⟩
    · intro hr hgt
      rcases hr with hr | hr
      · omega
      · have := this.mp hgt
        omega
  · rw [Nat.compare_eq_gt] at h
    constructor
    · intro hne
      exact absurd rfl hne
    · intro hr
      rcases hr with hr | hr <;> omega

/-- C8: sort_todos_by_priority puts tasks in ascending priority_value
order, breaking ties by descending created_date, and is a permutation
of its input. -/
theorem sort_todos_by_priority_sorted (l : List Todo) :
    (sort_todos_by_priority l).Pairwise sortRel ∧
    (sort_todos_by_priority l).Perm l := by
  unfold sort_todos_by_priority
  refine ⟨List.Pairwise.imp ?_ (List.sorted_mergeSort ?_ ?_ l), List.mergeSort_perm l _⟩
  · intro a b hab
    simp only [decide_eq_true_eq] at hab
    exact (todoCmp_ne_gt a b).mp hab
  · intro a b c hab hbc
    simp only [decide_eq_true_eq] at hab hbc ⊢
    have h1 := (todoCmp_ne_gt a b).mp hab
    have h2 := (todoCmp_ne_gt b c).mp hbc
    refine (todoCmp_ne_gt a c).mpr ?_
    unfold sortRel at h1 h2 ⊢
    rcases h1 with h1 | ⟨h1, h1d⟩ <;> rcases h2 with h2 | ⟨h2, h2d⟩
    · exact Or.inl (by omega)
    · exact Or.inl (by omega)
    · exact Or.inl (by omega)
    · exact Or.inr ⟨by omega, le_trans h2d h1d⟩
  · intro a b
    by_cases hab : todoCmp a b ≠ .gt
    · simp [hab]
    · have hba : todoCmp b a ≠ .gt := by
        refine (todoCmp_ne_gt b a).mpr ?_
        have : ¬ sortRel a b := fun hr => hab ((todoCmp_ne_gt a b).mpr hr)
        unfold sortRel at this ⊢
        push_neg at this
        rcases Nat.lt_or_ge b.priority_value a.priority_value with h | h
        · exact Or.inl h
        · have heq : a.priority_value = b.priority_value := by
            have := this.1
            omega
          have hcd := this.2 heq
          exact Or.inr ⟨heq.symm, by omega⟩
      simp [hba]

/-- C4: with all set to false, filter_todos never returns an Archived
task whatever the other filter arguments are; and with all set to true
an Archived task passing the other filters is returned, shown on a
concrete collection. -/
theorem filter_todos_excludes_archived (tl : TodoList)
    (status category priority tags : Option Str) (t : Todo)
    (ht : t ∈ tl.filter_todos status category priority tags false) :
    t.status ≠ .Archived ∧
    archivedTodo ∈ archivedList.filter_todos none none none none true := by
  constructor
  · rcases List.mem_filter.mp ht with ⟨_, hp⟩
    simp only [Bool.false_or, Bool.and_eq_true, decide_eq_true_eq] at hp
    intro hc
    simp [hc] at hp
  · decide

/-- C4 witness: a concrete task really does pass the all=false filter. -/
theorem filter_todos_excludes_archived_witness :
    sampleTodo.status ≠ .Archived ∧
    archivedTodo ∈ archivedList.filter_todos none none none none true :=
  filter_todos_excludes_archived sampleList none none none none sampleTodo (by decide)

/-- C5: a status or priority filter string that does not parse is
ignored by filter_todos: the result is identical to the call without
that clause. -/
theorem filter_todos_unparsable_ignored (tl : TodoList)
    (category tags status2 priority2 : Option Str) (all : Bool) (s p : Str)
    (hs : parse_status s = none) (hp : parse_priority p = none) :
    tl.filter_todos (some s) category priority2 tags all =
      tl.filter_todos none category priority2 tags all ∧
    tl.filter_todos status2 category (some p) tags all =
      tl.filter_todos status2 category none tags all := by
  constructor
  · unfold TodoList.filter_todos
    simp only [hs]
  · unfold TodoList.filter_todos
    simp only [hp]

/-- C5 witness: concrete unparsable filter strings are ignored. -/
theorem filter_todos_unparsable_ignored_witness :
    sampleList.filter_todos (some (str "bogus")) none none none false =
      sampleList.filter_todos none none none none false ∧
    sampleList.filter_todos none none (some (str "p9")) none false =
      sampleList.filter_todos none none none none false :=
  filter_todos_unparsable_ignored sampleList none none none none false
    (str "bogus") (str "p9") (by decide) (by decide)

/-- A successful status-only update rewrites exactly the targeted task
by applyStatusChange and reports success. -/
theorem update_todo_status_eq (tl : TodoList) (now : Int) (id : Nat)
    (s : Str) (ns : Status) (t : Todo)
    (ht : tl.todos.find? (fun x => x.id = id) = some t)
    (hs : parse_status s = some ns) :
    tl.update_todo now id (some s) none none none none none =
      ({ tl with todos := modifyFirst (applyStatusChange now ns) id tl.todos }, false) := by
  unfold TodoList.update_todo
  simp [ht, hs]

/-- C1: through update_todo, a status transition from Todo or
InProgress into Done stamps finished_date with the current time, a
transition from Done back into Todo or InProgress clears it, and a
transition whose old or new status is Archived leaves it unchanged. -/
theorem update_todo_finished_date (tl : TodoList) (now : Int) (id : Nat)
    (s : Str) (ns : Status) (t : Todo)
    (ht : tl.todos.find? (fun x => x.id = id) = some t)
    (hs : parse_status s = some ns) :
    (tl.update_todo now id (some s) none none none none none).2 = false ∧
    (tl.update_todo now id (some s) none none none none none).1.todos.find?
        (fun x => x.id = id) = some (applyStatusChange now ns t) ∧
    (ns = .Done ∧ (t.status = .Todo ∨ t.status = .InProgress) →
      (applyStatusChange now ns t).finished_date = some now) ∧
    ((ns = .Todo ∨ ns = .InProgress) ∧ t.status = .Done →
      (applyStatusChange now ns t).finished_date = none) ∧
    ((ns = .Archived ∨ t.status = .Archived) →
      (applyStatusChange now ns t).finished_date = t.finished_date) := by
  rw [update_todo_status_eq tl now id s ns t ht hs]
  refine ⟨rfl, ?_, ?_, ?_, ?_⟩
  · exact find?_modifyFirst _ id tl.todos t (applyStatusChange_id now ns) ht
  · intro h
    rw [applyStatusChange_finished_date]
    simp [h.1, h.2]
  · intro h
    rw [applyStatusChange_finished_date]
    rcases h.1 with h1 | h1 <;> simp [h1, h.2]
  · intro h
    rw [applyStatusChange_finished_date]
    rcases h with h | h <;> simp [h]

/-- C1 witness: marking the concrete sample task done stamps its
finished_date with the current time. -/
theorem update_todo_finished_date_witness :
    (sampleList.update_todo 100 1 (some (str "done")) none none none none none).2 = false ∧
    (sampleList.update_todo 100 1 (some (str "done")) none none none none none).1.todos.find?
        (fun x => x.id = 1) = some (applyStatusChange 100 Status.Done sampleTodo) ∧
    (Status.Done = .Done ∧ (sampleTodo.status = .Todo ∨ sampleTodo.status = .InProgress) →
      (applyStatusChange 100 Status.Done sampleTodo).finished_date = some 100) ∧
    ((Status.Done = .Todo ∨ Status.Done = .InProgress) ∧ sampleTodo.status = .Done →
      (applyStatusChange 100 Status.Done sampleTodo).finished_date = none) ∧
    ((Status.Done = .Archived ∨ sampleTodo.status = .Archived) →
      (applyStatusChange 100 Status.Done sampleTodo).finished_date = sampleTodo.finished_date) :=
  update_todo_finished_date sampleList 100 1 (str "done") Status.Done sampleTodo
    (by decide) (by decide)

/-- C9: update_todo is not atomic on error: with a valid status string
and an unparsable priority string the call reports an error, yet the
status change, including its finished_date effect, is already applied
in the returned state. -/
theorem update_todo_not_atomic (tl : TodoList) (now : Int) (id : Nat)
    (s p : Str) (ns : Status) (t : Todo)
    (ht : tl.todos.find? (fun x => x.id = id) = some t)
    (hs : parse_status s = some ns)
    (hp : parse_priority p = none) :
    (tl.update_todo now id (some s) (some p) none none none none).2 = true ∧
    (tl.update_todo now id (some s) (some p) none none none none).1.todos.find?
        (fun x => x.id = id) = some (applyStatusChange now ns t) ∧
    (applyStatusChange now ns t).status = ns := by
  have key : tl.update_todo now id (some s) (some p) none none none none =
      ({ tl with todos := modifyFirst (applyStatusChange now ns) id tl.todos }, true) := by
    unfold TodoList.update_todo
    simp [ht, hs, hp]
  rw [key]
  exact ⟨rfl, find?_modifyFirst _ id tl.todos t (applyStatusChange_id now ns) ht,
    applyStatusChange_status now ns t⟩

/-- C9 witness: a concrete non-atomic update: the error is reported and
the sample task is nevertheless already marked Done. -/
theorem update_todo_not_atomic_witness :
    (sampleList.update_todo 100 1 (some (str "done")) (some (str "bogus")) none none none none).2 = true ∧
    (sampleList.update_todo 100 1 (some (str "done")) (some (str "bogus")) none none none none).1.todos.find?
        (fun x => x.id = 1) = some (applyStatusChange 100 Status.Done sampleTodo) ∧
    (applyStatusChange 100 Status.Done sampleTodo).status = Status.Done :=
  update_todo_not_atomic sampleList 100 1 (str "done") (str "bogus") Status.Done sampleTodo
    (by decide) (by decide) (by decide)

/-- C3 counterexample: a category of 51 bytes, which validate_category
rejects, is accepted by update_todo without error and stored verbatim
on the task, contradicting the claim that the call fails with a
ValidationError and does not store the value. -/
theorem update_todo_no_validation_counterexample :
    utf8Len (List.replicate 51 'a') = 51 ∧
    validate_category (List.replicate 51 'a') = none ∧
    (sampleList.update_todo 0 1 none none none (some (List.replicate 51 'a')) none none).2 = false ∧
    ((sampleList.update_todo 0 1 none none none (some (List.replicate 51 'a')) none none).1.todos.find?
        (fun x => x.id = 1)).map Todo.category = some (some (List.replicate 51 'a')) := by
  refine ⟨by decide, by decide, by decide, by decide⟩

/-- C3 (amended): update_todo performs no validation at all on the
category, project and notes arguments: whatever their length, the call
succeeds and stores each non-empty value verbatim (empty values clear
the field). -/
theorem update_todo_skips_validation (tl : TodoList) (now : Int) (id : Nat)
    (c pj nt : Str) (t : Todo)
    (ht : tl.todos.find? (fun x => x.id = id) = some t) :
    (tl.update_todo now id none none none (some c) (some pj) (some nt)).2 = false ∧
    (tl.update_todo now id none none none (some c) (some pj) (some nt)).1.todos.find?
        (fun x => x.id = id) =
      some { t with category := if c.isEmpty then none else some c,
                    project := if pj.isEmpty then none else some pj,
                    notes := if nt.isEmpty then none else some nt } := by
  have key : tl.update_todo now id none none none (some c) (some pj) (some nt) =
      ({ tl with todos :=
          (modifyFirst (fun t => { t with notes := if nt.isEmpty then none else some nt }) id
            (modifyFirst (fun t => { t with project := if pj.isEmpty then none else some pj }) id
              (modifyFirst (fun t => { t with category := if c.isEmpty then none else some c }) id
                tl.todos))) }, false) := by
    unfold TodoList.update_todo
    simp [ht]
  rw [key]
  refine ⟨rfl, ?_⟩
  have h1 := find?_modifyFirst
    (fun t => { t with category := if c.isEmpty then none else some c }) id tl.todos t
    (fun x => rfl) ht
  have h2 := find?_modifyFirst
    (fun t => { t with project := if pj.isEmpty then none else some pj }) id _ _
    (fun x => rfl) h1
  have h3 := find?_modifyFirst
    (fun t => { t with notes := if nt.isEmpty then none else some nt }) id _ _
    (fun x => rfl) h2
  exact h3

/-- C3 witness for the amended claim: an over-long category is stored
without error on the concrete sample collection. -/
theorem update_todo_skips_validation_witness :
    (sampleList.update_todo 0 1 none none none (some (List.replicate 51 'a'))
        (some (str "p")) (some (str "n"))).2 = false ∧
    (sampleList.update_todo 0 1 none none none (some (List.replicate 51 'a'))
        (some (str "p")) (some (str "n"))).1.todos.find? (fun x => x.id = 1) =
      some { sampleTodo with
              category := if (List.replicate 51 'a').isEmpty then none
                else some (List.replicate 51 'a'),
              project := if (str "p").isEmpty then none else some (str "p"),
              notes := if (str "n").isEmpty then none else some (str "n") } :=
  update_todo_skips_validation sampleList 0 1 (List.replicate 51 'a') (str "p") (str "n")
    sampleTodo (by decide)

/-- C10: the prefixed query forms of filter_by_special_syntax do not
exclude Archived tasks: a hash query returns every task carrying the
tag, an at query every task with the category, and a bang query with a
parsable status exactly the tasks with that status — in particular the
bang-archived query returns exactly the Archived tasks — while the
free-text fallback (search_todos) never returns an Archived task. -/
theorem special_syntax_includes_archived (todos : List Todo) (rest q : Str)
    (st : Status) (t : Todo) :
    (t ∈ todos → t.tags.any (fun x => x = toLowerStr rest) = true →
      t ∈ filter_by_special_syntax todos ('#' :: rest)) ∧
    (t ∈ todos → (∀ cat, t.category = some cat → toLowerStr cat = toLowerStr rest) →
      t.category ≠ none →
      t ∈ filter_by_special_syntax todos ('@' :: rest)) ∧
    (parse_status_for_filter (toLowerStr rest) = some st →
      filter_by_special_syntax todos ('!' :: rest) =
        todos.filter (fun x => x.status = st)) ∧
    ( filter_by_special_syntax todos (str "!archived") =
      todos.filter (fun x => x.status = Status.Archived)) ∧
    (t ∈ search_todos todos q → t.status ≠ Status.Archived) := by
  have hbang : ∀ r s2, parse_status_for_filter (toLowerStr r) = some s2 →
      filter_by_special_syntax todos ('!' :: r) =
        todos.filter (fun x => x.status = s2) := by
    intro r s2 hps
    unfold filter_by_special_syntax
    rw [show startsWithChar ('!' :: r) '#' = false from rfl]
    rw [show startsWithChar ('!' :: r) '@' = false from rfl]
    rw [show startsWithChar ('!' :: r) '!' = true from rfl]
    simp only [if_false, if_true, Bool.false_eq_true, drop1, List.drop_succ_cons,
      List.drop_zero, hps]
  refine ⟨?_, ?_, hbang rest st, ?_, ?_⟩
  · intro hmem htag
    unfold filter_by_special_syntax
    rw [show startsWithChar ('#' :: rest) '#' = true from rfl]
    simp only [if_true, drop1, List.drop_succ_cons, List.drop_zero]
    exact List.mem_filter.mpr ⟨hmem, htag⟩
  · intro hmem hcat hne
    unfold filter_by_special_syntax
    rw [show startsWithChar ('@' :: rest) '#' = false from rfl]
    rw [show startsWithChar ('@' :: rest) '@' = true from rfl]
    simp only [Bool.false_eq_true, if_false, if_true, drop1, List.drop_succ_cons,
      List.drop_zero]
    refine List.mem_filter.mpr ⟨hmem, ?_⟩
    rcases hc : t.category with _ | cat
    · exact absurd hc hne
    · simpa using hcat cat hc
  · have : str "!archived" = '!' :: str "archived" := rfl
    rw [this, hbang (str "archived") Status.Archived (by decide)]
  · intro hmem
    rcases List.mem_filter.mp hmem with ⟨_, hp⟩
    simp only [Bool.and_eq_true, decide_eq_true_eq] at hp
    intro hc
    simp [hc] at hp

/-- C10 witness: on a one-element archived collection, the hash query
returns the archived task, the bang-archived query returns exactly it,
and it passes through unexcluded. -/
theorem special_syntax_includes_archived_witness :
    archivedTodo ∈ filter_by_special_syntax [archivedTodo] ('#' :: str "urgent") ∧
    filter_by_special_syntax [archivedTodo] (str "!archived") =
      List.filter (fun x => decide (x.status = Status.Archived)) [archivedTodo] :=
  ⟨(special_syntax_includes_archived [archivedTodo] (str "urgent") (str "x")
      Status.Archived archivedTodo).1 (by decide) (by decide),
   (special_syntax_includes_archived [archivedTodo] (str "x") (str "x")
      Status.Archived archivedTodo).2.2.2.1⟩

end GuidebookTodo
